import Mathlib

/-!
Verification of the TT6581 simulation/stimulus engine (C++ testbenches under
src/sim/cpp) against its natural-language design specification.

The definitions below are a shallow embedding of the engine's components:
machine integers are modelled as `Nat` with explicit `% 2^w` where the C++
code truncates, tick-consuming routines are modelled as functions on a tick
counter, and the event-merger main loops are modelled as explicit state
transformers.  Each definition's doc comment names the source function and
location it embeds.
-/

/-- A stimulus event, from `struct StimulusEvent` in
`src/sim/cpp/sim_tt6581_player.cpp` (lines 20-24) and
`src/sim/cpp/sim_sid_player.cpp` (lines 33-37):
`{uint64_t clk_tick; uint8_t addr; uint8_t data;}`.
`addr` and `data` are stored already reduced mod 256 (uint8_t). -/
structure StimulusEvent where
  clk_tick : Nat
  addr : Nat
  data : Nat
  deriving DecidableEq, Repr

/-- Tick cost of the per-bit inner loops of `spi_write`
(`src/sim/cpp/sim_common.h` lines 185-191): for each of `n` frame bits the
encoder runs `spi_div/2` ticks before raising `sclk_i` and `spi_div/2` ticks
before lowering it.  `t` is the tick counter on entry. -/
def spi_write_bits : Nat → Nat → Nat → Nat
  | 0, _, t => t
  | n + 1, d, t => spi_write_bits n d (t + d / 2 + d / 2)

/-- Tick counter after one `spi_write` call
(`src/sim/cpp/sim_common.h` lines 180-195, identically
`src/sim/cpp/sim_sid_player.cpp` lines 74-91 with `SPI_CLK_DIV = 2`):
16 frame bits each costing `d/2 + d/2` ticks, then `d/2` ticks before
chip-select deassertion, then a fixed 20-tick trailing idle. -/
def spi_write (d t : Nat) : Nat :=
  spi_write_bits 16 d t + d / 2 + 20

/-- Tick counter after `n` back-to-back `spi_write` calls starting at `t`. -/
def spi_write_seq : Nat → Nat → Nat → Nat
  | 0, _, t => t
  | n + 1, d, t => spi_write_seq n d (spi_write d t)

/-- The 16-bit SPI frame built by the shared `spi_write`
(`src/sim/cpp/sim_common.h` line 183):
`uint16_t frame = 0x8000 | (addr << 8) | data;` — `addr` and `data` are
`uint8_t` promoted to `int`; the assignment to `uint16_t` truncates mod
`2^16`. -/
def spi_frame (addr data : Nat) : Nat :=
  (0x8000 ||| addr <<< 8 ||| data) % 2 ^ 16

/-- The bit sequence driven on `mosi_i` for a frame
(`src/sim/cpp/sim_common.h` lines 185-186): `(frame >> i) & 1` for
`i = 15` down to `0`. -/
def mosi_bits (frame : Nat) : List Nat :=
  (List.range 16).reverse.map (fun i => frame / 2 ^ i % 2)

/-- PDM capture state, from `struct PdmCapture` in
`src/sim/cpp/sim_common.h` (lines 127-168).  The output file is modelled as
the list `out` of bytes written so far. -/
structure PdmCapture where
  byte : Nat
  bit_count : Nat
  total : Nat
  out : List Nat
  active : Bool
  deriving DecidableEq, Repr

/-- `PdmCapture::capture` (`src/sim/cpp/sim_common.h` lines 147-156):
`byte = (byte << 1) | (pdm_bit & 1)` (uint8, hence mod 256); after 8
accumulated bits the byte is written out and the accumulator resets;
`total` counts every captured bit. -/
def PdmCapture.capture (p : PdmCapture) (pdm_bit : Nat) : PdmCapture :=
  let b := (p.byte * 2 + pdm_bit % 2) % 256
  if p.bit_count + 1 = 8 then
    { p with byte := 0, bit_count := 0, out := p.out ++ [b], total := p.total + 1 }
  else
    { p with byte := b, bit_count := p.bit_count + 1, total := p.total + 1 }

/-- `PdmCapture::flush` (`src/sim/cpp/sim_common.h` lines 161-167):
if 1-7 bits remain they are left-shifted into
MSB position (uint8, zero-padding the low bits) and appended as a final
byte.  Returns the complete output byte list. -/
def PdmCapture.flushOut (p : PdmCapture) : List Nat :=
  if 0 < p.bit_count then p.out ++ [p.byte * 2 ^ (8 - p.bit_count) % 256] else p.out

/-- One system tick of the `sys_tick` lambda in
`src/sim/cpp/sim_tt6581_player.cpp` (lines 65-71): the tick counter is
incremented, then a PDM bit is captured when `active` and the (new) tick
count is divisible by the decimation ratio `r` (`CYCLES_PER_DAC`).
`pin` is the sampled value of `wave_o`. -/
def sys_tick (r : Nat) (pin : Nat) (tick : Nat) (p : PdmCapture) : Nat × PdmCapture :=
  (tick + 1, if p.active ∧ (tick + 1) % r = 0 then p.capture pin else p)

/-- Fresh capture state with capture enabled, as after `pdm.active = true`
on a fresh `PdmCapture` (`src/sim/cpp/sim_tt6581_player.cpp` lines 62, 114). -/
def initCapture : PdmCapture :=
  { byte := 0, bit_count := 0, total := 0, out := [], active := true }

/-- Run `t` system ticks from a fresh enabled capture state, with arbitrary
pin values `pins` (indexed by the tick counter before each tick). -/
def runCapture (r : Nat) (pins : Nat → Nat) : Nat → Nat × PdmCapture
  | 0 => (0, initCapture)
  | t + 1 =>
    let s := runCapture r pins t
    sys_tick r (pins s.1) s.1 s.2

/-- `calc_fcw` (`src/sim/cpp/sim_common.h` lines 231-234, identically
`src/sim/cpp/sim_tt6581.cpp` lines 117-120):
`uint64_t numerator = (uint64_t)freq * (1ULL << 19);`
`return (uint16_t)(numerator / 50000ULL);`
The C cast `(uint64_t)freq` truncates the double toward zero, i.e. takes
the floor of a non-negative `freq`; the multiplication is uint64 (mod
`2^64`) and the final cast truncates mod `2^16`.  The double argument is
modelled as a rational. -/
def calc_fcw (freq : Rat) : Nat :=
  (Int.toNat (Int.floor freq) * 2 ^ 19 % 2 ^ 64) / 50000 % 2 ^ 16

/-- Whitespace as treated by `istream` extraction and `strtoul` in the C
locale: space, tab, newline, carriage return, vertical tab, form feed. -/
def isWs (c : Char) : Bool :=
  c = ' ' ∨ c = '\t' ∨ c = '\r' ∨ c = '\n' ∨ c = '\x0b' ∨ c = '\x0c'

/-- Decimal digit test for the `iss >> ev.clk_tick` extraction. -/
def isDec (c : Char) : Bool :=
  '0' ≤ c ∧ c ≤ '9'

/-- Value of a hex digit, `none` if the character is not a hex digit. -/
def hexVal (c : Char) : Option Nat :=
  if '0' ≤ c ∧ c ≤ '9' then some (c.toNat - '0'.toNat)
  else if 'a' ≤ c ∧ c ≤ 'f' then some (c.toNat - 'a'.toNat + 10)
  else if 'A' ≤ c ∧ c ≤ 'F' then some (c.toNat - 'A'.toNat + 10)
  else none

/-- Accumulate the leading decimal digits of a character list. -/
def decLead : List Char → Nat → Nat
  | [], acc => acc
  | c :: cs, acc => if isDec c then decLead cs (acc * 10 + (c.toNat - '0'.toNat)) else acc

/-- Drop the leading decimal digits of a character list. -/
def decDrop : List Char → List Char
  | [] => []
  | c :: cs => if isDec c then decDrop cs else c :: cs

/-- Accumulate the leading hex digits of a character list. -/
def hexLead : List Char → Nat → Nat
  | [], acc => acc
  | c :: cs, acc =>
    match hexVal c with
    | some v => hexLead cs (acc * 16 + v)
    | none => acc

/-- Skip leading whitespace, as the `istream` sentry does. -/
def skipWs : List Char → List Char
  | [] => []
  | c :: cs => if isWs c then skipWs cs else c :: cs

/-- Optional leading sign, as accepted by `strtoul`/`strtoull` and by
`num_get` for unsigned integer extraction: returns whether a minus sign
was consumed, and the remaining characters. -/
def splitSign : List Char → Bool × List Char
  | '-' :: rest => (true, rest)
  | '+' :: rest => (false, rest)
  | cs => (false, cs)

/-- Conversion of a parsed magnitude to a 64-bit `unsigned long` value, as
shared by `std::stoul` and `uint64_t` stream extraction on this platform:
a magnitude beyond the representable range is an error (`none`, modelling
`std::out_of_range` resp. failbit on overflow); otherwise a minus sign
negates the value modulo `2^64`. -/
def ulongOfMag (neg : Bool) (m : Nat) : Option Nat :=
  if m < 2 ^ 64 then some (if neg then (2 ^ 64 - m) % 2 ^ 64 else m) else none

/-- `iss >> ev.clk_tick` (`src/sim/cpp/sim_tt6581_player.cpp` line 38):
skip whitespace, accept an optional sign (a minus wraps the value modulo
`2^64`, per `strtoull` semantics for unsigned extraction), then read the
run of decimal digits into a `uint64_t`.  Fails (failbit, leading to the
downstream crash path) when no digit follows the optional sign, or when
the magnitude overflows the 64-bit range. -/
def readDec (cs : List Char) : Option (Nat × List Char) :=
  match splitSign (skipWs cs) with
  | (neg, cs1) =>
    match cs1 with
    | [] => none
    | c :: _ =>
      if isDec c then
        match ulongOfMag neg (decLead cs1 0) with
        | some v => some (v, decDrop cs1)
        | none => none
      else none

/-- `iss >> token` for a `std::string` (`src/sim/cpp/sim_tt6581_player.cpp`
lines 40-45): skip whitespace, then read up to the next whitespace.
Fails (and leaves the target string unchanged) at end of input. -/
def readTok (cs : List Char) : Option (List Char × List Char) :=
  let cs := skipWs cs
  match cs with
  | [] => none
  | c :: rest => some ((c :: rest).takeWhile (fun x => ¬isWs x), (c :: rest).dropWhile (fun x => ¬isWs x))

/-- `std::stoul(token, nullptr, 16)` (`src/sim/cpp/sim_tt6581_player.cpp`
lines 42, 46), i.e. `strtoul` with base 16 on a 64-bit `unsigned long`:
leading whitespace is skipped, an optional sign is accepted (a minus
negates the magnitude modulo `2^64`), an optional `0x`/`0X` prefix counts
only when followed by a hex digit (otherwise the subject sequence is the
leading `0` and the value is 0); trailing non-hex characters are ignored.
`none` models a thrown exception: `std::invalid_argument` when no
conversion can be performed, `std::out_of_range` when the magnitude
exceeds the 64-bit range. -/
def stoul16 (t : List Char) : Option Nat :=
  match splitSign (skipWs t) with
  | (neg, cs1) =>
    match cs1 with
    | '0' :: 'x' :: rest =>
      (match rest with
       | c :: _ => if (hexVal c).isSome then ulongOfMag neg (hexLead rest 0) else ulongOfMag neg 0
       | [] => ulongOfMag neg 0)
    | '0' :: 'X' :: rest =>
      (match rest with
       | c :: _ => if (hexVal c).isSome then ulongOfMag neg (hexLead rest 0) else ulongOfMag neg 0
       | [] => ulongOfMag neg 0)
    | c :: _ => if (hexVal c).isSome then ulongOfMag neg (hexLead cs1 0) else none
    | [] => none

/-- Result of processing one stimulus line. `crash` models an uncaught
exception (`std::stoul` throwing `std::invalid_argument`), which terminates
the program. -/
inductive ParsedLine where
  | skip : ParsedLine
  | crash : ParsedLine
  | event : StimulusEvent → ParsedLine
  deriving DecidableEq, Repr

/-- Processing of one line of the `load_stimulus` while-loop body
(`src/sim/cpp/sim_tt6581_player.cpp` lines 31-49, identically
`src/sim/cpp/sim_sid_player.cpp` lines 104-124).
Empty lines and lines starting with `#` are skipped.  Otherwise the line is
read as `clk_tick` (decimal), then two whitespace-delimited tokens parsed
with `std::stoul(..., 16)`.  A failed extraction sets failbit, so later
extractions leave `token` unchanged: if the tick or the first token cannot
be read, `token` is still the empty string and `stoul` throws (crash); if
only the third extraction fails, `token` still holds the address token and
is parsed again as the data byte.  `addr`/`data` pass through `unsigned`
(mod `2^32`) into the `uint8_t` fields, which composes to a single
truncation mod 256. -/
def parseLine (line : List Char) : ParsedLine :=
  match line with
  | [] => ParsedLine.skip
  | c :: _ =>
    if c = '#' then ParsedLine.skip
    else
      match readDec line with
      | none => ParsedLine.crash
      | some (tk, rest1) =>
        match readTok rest1 with
        | none => ParsedLine.crash
        | some (t1, rest2) =>
          match stoul16 t1 with
          | none => ParsedLine.crash
          | some a =>
            match readTok rest2 with
            | none => ParsedLine.event { clk_tick := tk, addr := a % 256, data := a % 256 }
            | some (t2, _) =>
              match stoul16 t2 with
              | none => ParsedLine.crash
              | some dv => ParsedLine.event { clk_tick := tk, addr := a % 256, data := dv % 256 }

/-- The `load_stimulus` parse loop (`src/sim/cpp/sim_tt6581_player.cpp`
lines 26-53, identically the loop of `src/sim/cpp/sim_sid_player.cpp`
lines 103-127).  The stimulus resource is the list of its lines; the result
is the event vector in file order, or `Except.error ()` when an uncaught
`std::stoul` exception terminates the program. -/
def load_stimulus : List (List Char) → Except Unit (List StimulusEvent)
  | [] => Except.ok []
  | l :: ls =>
    match parseLine l with
    | ParsedLine.skip => load_stimulus ls
    | ParsedLine.crash => Except.error ()
    | ParsedLine.event e =>
      match load_stimulus ls with
      | Except.error u => Except.error u
      | Except.ok evs => Except.ok (e :: evs)

/-- Outcome of `main` of `src/sim/cpp/sim_sid_player.cpp` up to the start of
the main simulation loop. -/
inductive SidOutcome where
  | abortedBeforeTicking : SidOutcome
  | crash : SidOutcome
  | runs : Nat → SidOutcome
  deriving DecidableEq, Repr

/-- `load_stimulus` of `src/sim/cpp/sim_sid_player.cpp` (lines 94-128):
unlike the player variant it checks `file.is_open()` first and returns an
empty vector (after an immediate diagnostic) when the resource cannot be
opened.  `resource = none` models an unopenable file. -/
def load_stimulus_sid (resource : Option (List (List Char))) : Except Unit (List StimulusEvent) :=
  match resource with
  | none => Except.ok []
  | some lines => load_stimulus lines

/-- `main` of `src/sim/cpp/sim_sid_player.cpp` (lines 131-180) up to the
computation of `total_ticks`: loads the stimulus, returns 1 when the event
vector is empty (before any ticking), and otherwise computes
`total_ticks = events.back().clk_tick + SAMPLE_RATE * TICKS_PER_SAMPLE`
with `SAMPLE_RATE = 50000` and `TICKS_PER_SAMPLE = 1000` (lines 171-175). -/
def sid_player_main (resource : Option (List (List Char))) : SidOutcome :=
  match load_stimulus_sid resource with
  | Except.error _ => SidOutcome.crash
  | Except.ok evs =>
    match evs.getLast? with
    | none => SidOutcome.abortedBeforeTicking
    | some e => SidOutcome.runs (e.clk_tick + 50000 * 1000)

/-- Outcome of `main` of `src/sim/cpp/sim_tt6581_player.cpp` up to the
computation of `total_ticks`.  `undefinedBack` marks the call
`events.back()` on an empty vector — undefined behaviour. -/
inductive PlayerOutcome where
  | undefinedBack : PlayerOutcome
  | crash : PlayerOutcome
  | runs : Nat → PlayerOutcome
  deriving DecidableEq, Repr

/-- `main` of `src/sim/cpp/sim_tt6581_player.cpp` (lines 89-102): its
`load_stimulus` performs no `is_open` check (an unopenable stream simply
yields no lines, hence an empty vector) and `main` performs no empty check
before `events.back()` (line 101); `total_ticks = last_event_tick +
SAMPLE_RATE_HZ * CYCLES_PER_SAMPLE = last + 50000 * 1000` (line 102). -/
def tt6581_player_main (resource : Option (List (List Char))) : PlayerOutcome :=
  let loaded := match resource with
    | none => Except.ok []
    | some lines => load_stimulus lines
  match loaded with
  | Except.error _ => PlayerOutcome.crash
  | Except.ok evs =>
    match evs.getLast? with
    | none => PlayerOutcome.undefinedBack
    | some e => PlayerOutcome.runs (e.clk_tick + 50000 * 1000)

/-- State of the main simulation loop of
`src/sim/cpp/sim_tt6581_player.cpp` (lines 116-149): the tick counter,
the still-pending suffix of the event vector (from `event_idx` on), the
already-dispatched events each paired with the tick count at which its
`spi_write` began, and the sample bookkeeping (`sample_count`,
`next_sample`). -/
structure MergerState where
  tick : Nat
  pending : List StimulusEvent
  dispatched : List (Nat × StimulusEvent)
  sampleCount : Nat
  nextSample : Nat
  deriving DecidableEq, Repr

/-- The inner dispatch loop (`src/sim/cpp/sim_tt6581_player.cpp` lines
121-125): while the next pending event's tick is `≤` the current tick
count, dispatch it via `spi_write` (which itself consumes ticks, with
`SPI_CLK_DIV = d`) and advance `event_idx`.  Returns the tick counter, the
remaining pending events, and the dispatched list extended in dispatch
order with each event's dispatch-start tick. -/
def dispatchPhase (d : Nat) :
    Nat → List StimulusEvent → List (Nat × StimulusEvent) →
    Nat × List StimulusEvent × List (Nat × StimulusEvent)
  | t, [], disp => (t, [], disp)
  | t, e :: rest, disp =>
    if e.clk_tick ≤ t then dispatchPhase d (spi_write d t) rest (disp ++ [(t, e)])
    else (t, e :: rest, disp)

/-- The simulation instants traversed by one dispatch phase: the pairs of
tick counter and still-pending events observed before each iteration of the
inner while-loop of `src/sim/cpp/sim_tt6581_player.cpp` lines 121-125
(including the instant at which the loop exits). -/
def dispatch_trace (d : Nat) : Nat → List StimulusEvent → List (Nat × List StimulusEvent)
  | t, [] => [(t, [])]
  | t, e :: rest =>
    if e.clk_tick ≤ t then (t, e :: rest) :: dispatch_trace d (spi_write d t) rest
    else [(t, e :: rest)]

/-- The advancement target (`src/sim/cpp/sim_tt6581_player.cpp` lines
127-131): `target = total_ticks`, lowered to the next pending event's tick
if any, then lowered to `next_sample`. -/
def loopTarget (total : Nat) (pending : List StimulusEvent) (nextSample : Nat) : Nat :=
  min (match pending with
       | [] => total
       | e :: _ => min total e.clk_tick) nextSample

/-- One iteration of the main simulation loop
(`src/sim/cpp/sim_tt6581_player.cpp` lines 120-148): dispatch all due
events, compute the target, advance by `target - tick_count` ticks if the
target is ahead and by exactly one tick otherwise, then update the sample
bookkeeping when a sample boundary was reached
(`next_sample = (sample_count + 1) * tps` after `sample_count++`). -/
def loopIter (d total tps : Nat) (s : MergerState) : MergerState :=
  let r := dispatchPhase d s.tick s.pending s.dispatched
  let target := loopTarget total r.2.1 s.nextSample
  let t2 := if r.1 < target then target else r.1 + 1
  if s.nextSample ≤ t2 then
    { tick := t2, pending := r.2.1, dispatched := r.2.2,
      sampleCount := s.sampleCount + 1, nextSample := (s.sampleCount + 2) * tps }
  else
    { tick := t2, pending := r.2.1, dispatched := r.2.2,
      sampleCount := s.sampleCount, nextSample := s.nextSample }

/-- The main simulation loop `while (tick_count < total_ticks)`
(`src/sim/cpp/sim_tt6581_player.cpp` lines 120-149), with an explicit
iteration bound: since every iteration advances the tick counter by at
least one, a fuel of `total - tick` suffices to reach the exit
condition. -/
def runLoopFuel (d total tps : Nat) : Nat → MergerState → MergerState
  | 0, s => s
  | fuel + 1, s =>
    if s.tick < total then runLoopFuel d total tps fuel (loopIter d total tps s) else s

/-- `enum class EventType` of `src/sim/cpp/sim_tt6581.cpp` (line 201). -/
inductive EventType where
  | GATE_ON : EventType
  | GATE_OFF : EventType
  | FREQ_ONLY : EventType
  deriving DecidableEq, Repr

/-- `struct NoteEvent` of `src/sim/cpp/sim_tt6581.cpp` (lines 203-209);
the `double freq` field is modelled as a rational. -/
structure NoteEvent where
  sample : Nat
  voice : Nat
  freq : Rat
  wave : Nat
  type : EventType
  deriving DecidableEq, Repr

/-- The postcondition guaranteed by the C++ standard for the
`std::sort(song.begin(), song.end(), [](a, b){ return a.sample < b.sample; })`
calls of `src/sim/cpp/sim_tt6581.cpp` (lines 439-445): the result is a
permutation of the input that is sorted with respect to the strict
comparator, i.e. non-decreasing in `sample`.  `std::sort` guarantees
nothing more: the relative order of tied elements is unspecified. -/
def sort_spec (input output : List NoteEvent) : Prop :=
  List.Perm output input ∧ List.Pairwise (fun a b => a.sample ≤ b.sample) output

/-- The events of one timeline due at sample `now`: the per-timeline
dispatch while-loops of `src/sim/cpp/sim_tt6581.cpp` (lines 463-487) walk
the timeline from its index and stop at the first event with
`sample > total_samples`. -/
def due_events (now : Nat) (tl : List NoteEvent) : List NoteEvent :=
  tl.takeWhile (fun e => decide (e.sample ≤ now))

/-- The order in which the events due at sample `now` are dispatched across
registered timelines: `main` of `src/sim/cpp/sim_tt6581.cpp` runs one
complete due-event while-loop per timeline, in the order the timelines were
registered (the `song` loop at lines 463-479, then the `filter_song` loop
at lines 482-487); this generalises that fixed sequence of loops to a list
of timelines. -/
def dispatch_order (now : Nat) (timelines : List (List NoteEvent)) : List NoteEvent :=
  (timelines.map (due_events now)).flatten

set_option maxRecDepth 8192

/-! ### Supporting lemmas -/

theorem spi_write_bits_eq (d : Nat) : ∀ n t, spi_write_bits n d t = t + n * (d / 2 + d / 2) := by
  intro n
  induction n with
  | zero => intro t; simp [spi_write_bits]
  | succ n ih =>
    intro t
    simp only [spi_write_bits]
    rw [ih]
    ring

theorem spi_write_eq (d t : Nat) : spi_write d t = t + 16 * (d / 2 + d / 2) + d / 2 + 20 := by
  unfold spi_write
  rw [spi_write_bits_eq]

theorem lt_spi_write (d t : Nat) : t < spi_write d t := by
  rw [spi_write_eq]
  omega

theorem sys_tick_spec (r pin t : Nat) (p : PdmCapture)
    (ha : p.active = true) (htot : p.total = t / r) (hb : p.bit_count = t / r % 8)
    (hlen : p.out.length = t / r / 8) :
    (sys_tick r pin t p).1 = t + 1 ∧
    (sys_tick r pin t p).2.active = true ∧
    (sys_tick r pin t p).2.total = (t + 1) / r ∧
    (sys_tick r pin t p).2.bit_count = (t + 1) / r % 8 ∧
    (sys_tick r pin t p).2.out.length = (t + 1) / r / 8 := by
  unfold sys_tick
  by_cases hc : (t + 1) % r = 0
  · have hs : (t + 1) / r = t / r + 1 := by
      rw [Nat.succ_div, if_pos (Nat.dvd_of_mod_eq_zero hc)]
    rw [if_pos ⟨ha, hc⟩]
    unfold PdmCapture.capture
    by_cases h8 : p.bit_count + 1 = 8
    · rw [if_pos h8]
      rw [hb] at h8
      refine ⟨rfl, ha, ?_, ?_, ?_⟩ <;>
        simp only [htot, hs, List.length_append, List.length_singleton, hlen] <;>
        generalize t / r = q at h8 ⊢ <;> omega
    · rw [if_neg h8]
      rw [hb] at h8
      refine ⟨rfl, ha, ?_, ?_, ?_⟩ <;>
        simp only [htot, hs, hlen, hb] <;>
        generalize t / r = q at h8 ⊢ <;> omega
  · have hnd : ¬ r ∣ t + 1 := fun hdv => hc (Nat.dvd_iff_mod_eq_zero.mp hdv)
    have hs : (t + 1) / r = t / r := by
      rw [Nat.succ_div, if_neg hnd]
      omega
    rw [if_neg (fun hand => hc hand.2)]
    exact ⟨rfl, ha, by rw [htot, hs], by rw [hb, hs], by rw [hlen, hs]⟩

theorem runCapture_spec (r : Nat) (pins : Nat → Nat) :
    ∀ t, (runCapture r pins t).1 = t ∧
      (runCapture r pins t).2.active = true ∧
      (runCapture r pins t).2.total = t / r ∧
      (runCapture r pins t).2.bit_count = t / r % 8 ∧
      (runCapture r pins t).2.out.length = t / r / 8 := by
  intro t
  induction t with
  | zero => exact ⟨rfl, rfl, by simp [runCapture, initCapture], by simp [runCapture, initCapture],
      by simp [runCapture, initCapture]⟩
  | succ t ih =>
    obtain ⟨h1, h2, h3, h4, h5⟩ := ih
    simp only [runCapture]
    rw [h1]
    exact sys_tick_spec r (pins t) t (runCapture r pins t).2 h2 h3 h4 h5

/-- Model check: `std::stoul` accepts a sign-prefixed token (`strtoul`
negates the magnitude modulo `2^64`), so this line parses to an event
rather than crashing; the wrapped value `2^64 - 5` stores as `251` in the
`uint8_t` address field. -/
theorem parseLine_signed_data_token :
    parseLine "12 -5 0x34".toList =
      ParsedLine.event { clk_tick := 12, addr := 251, data := 0x34 } := by
  decide

/-- Model check: `uint64_t` stream extraction accepts a minus sign with
wraparound, so a sign-prefixed tick yields an event with the wrapped
tick value. -/
theorem parseLine_signed_tick :
    parseLine "-5 0x18 0x34".toList =
      ParsedLine.event { clk_tick := 2 ^ 64 - 5, addr := 0x18, data := 0x34 } := by
  decide

/-- Model check: a hex token whose magnitude (`2^64`) exceeds the 64-bit
`unsigned long` range makes `std::stoul` throw `std::out_of_range`,
an uncaught crash. -/
theorem parseLine_hex_out_of_range :
    parseLine "12 0x10000000000000000 0x34".toList = ParsedLine.crash := by
  decide

/-- Model check: a tick magnitude beyond the 64-bit range sets failbit on
the stream; the address token then stays empty and `std::stoul` throws. -/
theorem parseLine_dec_overflow :
    parseLine "99999999999999999999 0x18 0x34".toList = ParsedLine.crash := by
  decide

theorem dispatchPhase_tick_le (d : Nat) (pend : List StimulusEvent) :
    ∀ (t : Nat) (disp : List (Nat × StimulusEvent)), t ≤ (dispatchPhase d t pend disp).1 := by
  induction pend with
  | nil => intro t disp; simp [dispatchPhase]
  | cons e rest ih =>
    intro t disp
    simp only [dispatchPhase]
    split
    · exact le_trans (le_of_lt (lt_spi_write d t)) (ih (spi_write d t) (disp ++ [(t, e)]))
    · simp

theorem dispatchPhase_spec (d : Nat) (pend : List StimulusEvent) :
    ∀ (t : Nat) (disp : List (Nat × StimulusEvent)),
      pend.Pairwise (fun a b => a.clk_tick ≤ b.clk_tick) →
      (∀ p ∈ disp, p.2.clk_tick ≤ p.1 ∧ p.1 ≤ t) →
      (∀ p ∈ (dispatchPhase d t pend disp).2.2,
          p.2.clk_tick ≤ p.1 ∧ p.1 ≤ (dispatchPhase d t pend disp).1) ∧
      (∀ e ∈ (dispatchPhase d t pend disp).2.1,
          (dispatchPhase d t pend disp).1 < e.clk_tick) ∧
      (dispatchPhase d t pend disp).2.1.Pairwise (fun a b => a.clk_tick ≤ b.clk_tick) := by
  induction pend with
  | nil =>
    intro t disp _ hdisp
    simp only [dispatchPhase]
    refine ⟨fun p hp => hdisp p hp, ?_, ?_⟩
    · intro e he; simp at he
    · simp
  | cons e rest ih =>
    intro t disp hsort hdisp
    obtain ⟨hhead, htail⟩ := List.pairwise_cons.mp hsort
    simp only [dispatchPhase]
    split
    · next hle =>
      refine ih (spi_write d t) (disp ++ [(t, e)]) htail ?_
      intro p hp
      rcases List.mem_append.mp hp with hmem | hmem
      · obtain ⟨h1, h2⟩ := hdisp p hmem
        exact ⟨h1, le_trans h2 (le_of_lt (lt_spi_write d t))⟩
      · have hpe : p = (t, e) := List.mem_singleton.mp hmem
        subst hpe
        exact ⟨hle, le_of_lt (lt_spi_write d t)⟩
    · next hgt =>
      push_neg at hgt
      refine ⟨fun p hp => hdisp p hp, ?_, ?_⟩
      · intro x hx
        rcases List.mem_cons.mp hx with heq | hmem
        · subst heq; exact hgt
        · exact lt_of_lt_of_le hgt (hhead x hmem)
      · exact List.pairwise_cons.mpr ⟨hhead, htail⟩

theorem frame_hi_absorb : ∀ a : Nat, a < 256 → 0x8000 ||| a <<< 8 = 0x8000 ||| (a % 128) <<< 8 := by
  decide

theorem frame_hi_le : ∀ a : Nat, a < 256 → 0x8000 ||| (a % 128) <<< 8 ≤ 65280 := by
  decide

/-! ### Claims -/

/-- Claim C2: for every sequence of `n` back-to-back register writes with an
even clock divider `d ≥ 2`, the total number of ticks consumed by the
protocol encoder (`spi_write`) equals `n * (16*d + d/2 + 20)`: each of the
16 frame bits costs `d/2` ticks before raising the protocol clock and `d/2`
ticks before lowering it, followed by `d/2` ticks before chip-select
deassertion and a fixed 20-tick trailing idle period per write. -/
theorem claim_C2 (n d t : Nat) (_h2 : 2 ≤ d) (he : d % 2 = 0) :
    spi_write_seq n d t = t + n * (16 * d + d / 2 + 20) := by
  induction n generalizing t with
  | zero => simp [spi_write_seq]
  | succ n ih =>
    have hd : d / 2 + d / 2 = d := by omega
    simp only [spi_write_seq]
    rw [ih (spi_write d t), spi_write_eq, hd]
    ring

/-- Witness for C2: three back-to-back writes with divider 2 starting at
tick 0 consume exactly `3 * (16*2 + 1 + 20) = 159` ticks. -/
theorem claim_C2_witness : spi_write_seq 3 2 0 = 0 + 3 * (16 * 2 + 2 / 2 + 20) :=
  claim_C2 3 2 0 (by decide) (by decide)

/-- Claim C10: for every 8-bit address and 8-bit data, the 16-bit frame
transmitted by the shared `spi_write` equals
`0x8000 ||| ((addr % 128) <<< 8) ||| data` — bit 7 of the address is
absorbed into the always-set write-flag bit, so the frame (and hence the
transmitted bit sequence) for address `a` is identical to that for
`a % 128`, even though the shared variant performs no explicit `0x7F`
mask. -/
theorem claim_C10 (a d : Nat) (ha : a < 256) (hd : d < 256) :
    spi_frame a d = spi_frame (a % 128) d ∧
    spi_frame a d = 0x8000 ||| (a % 128) <<< 8 ||| d ∧
    mosi_bits (spi_frame a d) = mosi_bits (spi_frame (a % 128) d) := by
  have hmod : a % 128 % 128 = a % 128 := by omega
  have key : 0x8000 ||| a <<< 8 ||| d = 0x8000 ||| (a % 128) <<< 8 ||| d := by
    rw [frame_hi_absorb a ha]
  have h1 : spi_frame a d = spi_frame (a % 128) d := by
    unfold spi_frame
    rw [key, frame_hi_absorb (a % 128) (by omega), hmod]
  have hx : 0x8000 ||| (a % 128) <<< 8 < 2 ^ 16 :=
    lt_of_le_of_lt (frame_hi_le a ha) (by norm_num)
  have hlt : 0x8000 ||| (a % 128) <<< 8 ||| d < 2 ^ 16 :=
    Nat.bitwise_lt hx (lt_trans hd (by norm_num))
  have h2 : spi_frame a d = 0x8000 ||| (a % 128) <<< 8 ||| d := by
    unfold spi_frame
    rw [key]
    exact Nat.mod_eq_of_lt hlt
  exact ⟨h1, h2, by rw [h1]⟩

/-- Witness for C10 at address `200 = 0xC8` (bit 7 set) and data `5`: the
frame equals the one for address `200 % 128 = 72`. -/
theorem claim_C10_witness :
    spi_frame 200 5 = spi_frame (200 % 128) 5 ∧
    spi_frame 200 5 = 0x8000 ||| (200 % 128) <<< 8 ||| 5 ∧
    mosi_bits (spi_frame 200 5) = mosi_bits (spi_frame (200 % 128) 5) :=
  claim_C10 200 5 (by decide) (by decide)

/-- Counterexample to C5: the claim states that for every non-negative
`frequency_hz` the control word equals
`⌊frequency_hz * 2^19 / 50000⌋ % 2^16`, but `calc_fcw` truncates the double
to `uint64_t` before scaling.  At `frequency_hz = 261.63` (note C4, used by
`src/sim/cpp/sim_tt6581.cpp`), the code yields
`⌊261.63⌋ * 2^19 / 50000 = 2736` while the claimed formula yields
`⌊261.63 * 2^19 / 50000⌋ = 2743`. -/
theorem claim_C5_counterexample :
    calc_fcw (26163 / 100) = 2736 ∧
    Int.floor ((26163 / 100 : Rat) * 2 ^ 19 / 50000) = 2743 := by
  constructor
  · unfold calc_fcw
    norm_num
    decide
  · norm_num

/-- Claim C5 as amended: `calc_fcw` truncates the frequency to an integer
first; for every integer `frequency_hz` (below the `uint64` overflow bound
`2^45`) the control word equals `frequency_hz * 2^19 / 50000` truncated to
16 bits unsigned, and in particular for `frequency_hz = 440` it equals
`⌊440 * 2^19 / 50000⌋ = 4613`. -/
theorem claim_C5_amended (n : Nat) (h : n < 2 ^ 45) :
    calc_fcw (n : Rat) = n * 2 ^ 19 / 50000 % 2 ^ 16 ∧ calc_fcw (440 : Rat) = 4613 := by
  constructor
  · unfold calc_fcw
    rw [Int.floor_natCast, Int.toNat_natCast]
    have hlt : n * 2 ^ 19 < 2 ^ 64 := by
      calc n * 2 ^ 19 < 2 ^ 45 * 2 ^ 19 := by
            exact Nat.mul_lt_mul_of_lt_of_le h (le_refl _) (by norm_num)
        _ = 2 ^ 64 := by norm_num
    rw [Nat.mod_eq_of_lt hlt]
  · unfold calc_fcw
    norm_num
    decide

/-- Witness for the amended C5 at `frequency_hz = 440`. -/
theorem claim_C5_amended_witness :
    calc_fcw ((440 : Nat) : Rat) = 440 * 2 ^ 19 / 50000 % 2 ^ 16 ∧ calc_fcw (440 : Rat) = 4613 :=
  claim_C5_amended 440 (by norm_num)

/-- Claim C3: for every capture run of `t` total ticks with decimation
ratio `r > 0` (capture active from the first tick, a bit captured exactly
when the incremented tick counter is divisible by `r`) and any pin values,
the number of captured bits before flush equals `t / r`, the number of
bytes in the output after flush equals `(t / r + 7) / 8 = ⌈(t/r) / 8⌉`, and
flush appends a final zero-low-padded byte exactly when the captured-bit
count is not a multiple of 8. -/
theorem claim_C3 (r : Nat) (pins : Nat → Nat) (t : Nat) (_hr : 0 < r) :
    (runCapture r pins t).2.total = t / r ∧
    ((runCapture r pins t).2.flushOut).length = (t / r + 7) / 8 ∧
    (((runCapture r pins t).2.flushOut).length = (runCapture r pins t).2.out.length + 1 ↔
      ¬ t / r % 8 = 0) := by
  obtain ⟨h1, h2, h3, h4, h5⟩ := runCapture_spec r pins t
  refine ⟨h3, ?_, ?_⟩
  · unfold PdmCapture.flushOut
    split
    · next hbc =>
      rw [h4] at hbc
      simp only [List.length_append, List.length_singleton]
      rw [h5]
      generalize t / r = q at hbc ⊢
      omega
    · next hbc =>
      rw [h4] at hbc
      rw [h5]
      generalize t / r = q at hbc ⊢
      omega
  · unfold PdmCapture.flushOut
    split
    · next hbc =>
      rw [h4] at hbc
      simp only [List.length_append, List.length_singleton]
      generalize t / r = q at hbc ⊢
      exact ⟨fun _ => by omega, fun _ => by trivial⟩
    · next hbc =>
      rw [h4] at hbc
      generalize t / r = q at hbc ⊢
      constructor
      · intro hcon
        omega
      · intro hne
        exact absurd (by omega) hne

/-- Counterexample to C7: the claim states that an unparseable record never
crashes the engine, but `load_stimulus` calls `std::stoul` on the raw token
without any exception handling, and `std::stoul` throws
`std::invalid_argument` on a non-hex token.  The line `12 zz 0x34` is
neither blank nor comment-prefixed, yet loading a file containing it
terminates the program (modelled as `Except.error ()`). -/
theorem claim_C7_counterexample :
    load_stimulus ["100 0x18 0x0F".toList, "12 zz 0x34".toList] = Except.error () ∧
    "12 zz 0x34".toList ≠ [] ∧
    "12 zz 0x34".toList.head? ≠ some '#' := by
  refine ⟨by rfl, by decide, by decide⟩

/-- Claim C7 as amended: the Stimulus Loader does not skip or default a
malformed record; whenever any line of the resource makes the parse crash
(an uncaught `std::invalid_argument` from `std::stoul`), the whole load
terminates the program. -/
theorem claim_C7_amended (lines : List (List Char))
    (h : ∃ l ∈ lines, parseLine l = ParsedLine.crash) :
    load_stimulus lines = Except.error () := by
  induction lines with
  | nil => simp at h
  | cons l ls ih =>
    obtain ⟨x, hx, hcrash⟩ := h
    rcases List.mem_cons.mp hx with heq | hmem
    · subst heq
      simp [load_stimulus, hcrash]
    · have hrec := ih ⟨x, hmem, hcrash⟩
      cases hpl : parseLine l <;> simp [load_stimulus, hpl, hrec]

/-- Witness for the amended C7 at a one-line resource with a non-hex
address token. -/
theorem claim_C7_amended_witness :
    load_stimulus ["12 zz 0x34".toList] = Except.error () :=
  claim_C7_amended ["12 zz 0x34".toList] (by decide)

/-- Counterexample to C8: the claim states that for every run a missing
resource is reported and aborts cleanly before ticking and that a
zero-record resource is detected by the caller before the run duration is
computed from the last event's tick.  In `sim_tt6581_player.cpp` neither
holds: `load_stimulus` has no `is_open` check and `main` has no empty
check, so both a missing resource (`none`) and an empty one (`some []`)
reach `events.back()` on an empty vector — undefined behaviour — inside
the run-duration computation itself. -/
theorem claim_C8_counterexample :
    tt6581_player_main (some []) = PlayerOutcome.undefinedBack ∧
    tt6581_player_main none = PlayerOutcome.undefinedBack :=
  ⟨rfl, rfl⟩

/-- Claim C8 as amended: in the `sim_sid_player.cpp` variant a missing
resource yields an immediate diagnostic and an empty result, and the
caller aborts (returns 1) before any ticking whenever the loaded event
list is empty, before computing the run duration; in the
`sim_tt6581_player.cpp` variant there is no such check and an empty load
reaches `events.back()` on an empty vector (undefined behaviour). -/
theorem claim_C8_amended (lines : List (List Char))
    (h : load_stimulus lines = Except.ok []) :
    sid_player_main none = SidOutcome.abortedBeforeTicking ∧
    sid_player_main (some lines) = SidOutcome.abortedBeforeTicking ∧
    tt6581_player_main (some lines) = PlayerOutcome.undefinedBack := by
  refine ⟨rfl, ?_, ?_⟩
  · simp [sid_player_main, load_stimulus_sid, h]
  · simp [tt6581_player_main, h]

/-- Witness for the amended C8 at a resource containing only a comment
line (zero valid records). -/
theorem claim_C8_amended_witness :
    sid_player_main none = SidOutcome.abortedBeforeTicking ∧
    sid_player_main (some ["# header".toList]) = SidOutcome.abortedBeforeTicking ∧
    tt6581_player_main (some ["# header".toList]) = PlayerOutcome.undefinedBack :=
  claim_C8_amended ["# header".toList] (by rfl)

/-- Counterexample to C1: the claim requires the current tick counter to
stay strictly below the tick of every still-pending event at every
simulation instant, even while a dispatched event's SPI write consumes
ticks.  With divider 2 a write consumes 53 ticks, so dispatching an event
due at tick 0 carries the tick counter to 53 while the event scheduled at
tick 20 is still pending: the trace of instants traversed by the dispatch
phase contains the instant `(53, [⟨20, 0, 1⟩])`, where the pending event's
tick 20 is below the current tick 53. -/
theorem claim_C1_counterexample :
    dispatch_trace 2 0 [⟨0, 24, 15⟩, ⟨20, 0, 1⟩] =
      [(0, [⟨0, 24, 15⟩, ⟨20, 0, 1⟩]), (53, [⟨20, 0, 1⟩]), (106, [])] ∧
    (dispatch_trace 2 0 [⟨0, 24, 15⟩, ⟨20, 0, 1⟩]).any
      (fun s => s.2.any fun e => decide (e.clk_tick < s.1)) = true :=
  ⟨by rfl, by rfl⟩

/-- Claim C1 as amended: with the pending events sorted by tick, (i) every
dispatched event's tick is at most its dispatch-start tick, which is at
most the tick counter after the dispatch phase; (ii) when the dispatch
phase completes, the tick counter is strictly below every still-pending
event's tick (every event made due during the phase's own SPI writes has
been dispatched before the clock advances again); (iii) the advancement
step of the loop never moves the tick counter beyond any pending event's
tick.  The strict pending-invariant can be violated only transiently inside
the dispatch phase while an SPI write consumes ticks. -/
theorem claim_C1_amended (d total tps t : Nat) (pend : List StimulusEvent)
    (disp : List (Nat × StimulusEvent)) (sc ns : Nat)
    (hsort : pend.Pairwise (fun a b => a.clk_tick ≤ b.clk_tick))
    (hdisp : ∀ p ∈ disp, p.2.clk_tick ≤ p.1 ∧ p.1 ≤ t) :
    (∀ p ∈ (dispatchPhase d t pend disp).2.2,
        p.2.clk_tick ≤ p.1 ∧ p.1 ≤ (dispatchPhase d t pend disp).1) ∧
    (∀ e ∈ (dispatchPhase d t pend disp).2.1,
        (dispatchPhase d t pend disp).1 < e.clk_tick) ∧
    (∀ e ∈ (loopIter d total tps ⟨t, pend, disp, sc, ns⟩).pending,
        (loopIter d total tps ⟨t, pend, disp, sc, ns⟩).tick ≤ e.clk_tick) := by
  obtain ⟨h1, h2, h3⟩ := dispatchPhase_spec d pend t disp hsort hdisp
  refine ⟨h1, h2, ?_⟩
  have hpend : (loopIter d total tps ⟨t, pend, disp, sc, ns⟩).pending =
      (dispatchPhase d t pend disp).2.1 := by
    simp only [loopIter]
    split <;> split <;> rfl
  have htick : (loopIter d total tps ⟨t, pend, disp, sc, ns⟩).tick =
      (if (dispatchPhase d t pend disp).1 <
          loopTarget total (dispatchPhase d t pend disp).2.1 ns
       then loopTarget total (dispatchPhase d t pend disp).2.1 ns
       else (dispatchPhase d t pend disp).1 + 1) := by
    simp only [loopIter]
    split <;> split <;> rfl
  intro ev hev
  rw [hpend] at hev
  rw [htick]
  split
  · next hlt =>
    cases hP : (dispatchPhase d t pend disp).2.1 with
    | nil => rw [hP] at hev; simp at hev
    | cons e0 rest =>
      have h4 : loopTarget total (e0 :: rest) ns ≤ e0.clk_tick := by
        simp only [loopTarget]
        exact le_trans (min_le_left _ _) (min_le_right _ _)
      have h5 : e0.clk_tick ≤ ev.clk_tick := by
        rw [hP] at h3 hev
        rcases List.mem_cons.mp hev with heq | hmem
        · subst heq; exact le_refl _
        · exact (List.pairwise_cons.mp h3).1 ev hmem
      exact le_trans h4 h5
  · next hge =>
    have := h2 ev hev
    omega

/-- Witness for the amended C1 on a sorted three-event timeline with
divider 2: the event at tick 0 is dispatched at once and carries the clock
to 53, making the event at tick 20 due; it is dispatched in the same phase
(ending at tick 106 with only the tick-300 event pending). -/
theorem claim_C1_amended_witness :
    (∀ p ∈ (dispatchPhase 2 0 [⟨0, 24, 15⟩, ⟨20, 0, 1⟩, ⟨300, 2, 3⟩] []).2.2,
        p.2.clk_tick ≤ p.1 ∧
          p.1 ≤ (dispatchPhase 2 0 [⟨0, 24, 15⟩, ⟨20, 0, 1⟩, ⟨300, 2, 3⟩] []).1) ∧
    (∀ e ∈ (dispatchPhase 2 0 [⟨0, 24, 15⟩, ⟨20, 0, 1⟩, ⟨300, 2, 3⟩] []).2.1,
        (dispatchPhase 2 0 [⟨0, 24, 15⟩, ⟨20, 0, 1⟩, ⟨300, 2, 3⟩] []).1 < e.clk_tick) ∧
    (∀ e ∈ (loopIter 2 1000 1000 ⟨0, [⟨0, 24, 15⟩, ⟨20, 0, 1⟩, ⟨300, 2, 3⟩], [], 0, 1000⟩).pending,
        (loopIter 2 1000 1000 ⟨0, [⟨0, 24, 15⟩, ⟨20, 0, 1⟩, ⟨300, 2, 3⟩], [], 0, 1000⟩).tick ≤
          e.clk_tick) :=
  claim_C1_amended 2 1000 1000 0 [⟨0, 24, 15⟩, ⟨20, 0, 1⟩, ⟨300, 2, 3⟩] [] 0 1000
    (by decide) (by decide)

/-- Claim C9: on every iteration of the main simulation loop the tick
counter strictly increases; the engine advances to exactly the target when
the target is ahead of the post-dispatch tick counter and by exactly one
tick otherwise; consequently the loop reaches its tick budget within
`total - tick` iterations for every input (including inputs whose pending
events all share the current tick, which are all drained by the dispatch
phase of a single iteration). -/
theorem claim_C9 (d total tps : Nat) (s : MergerState) :
    s.tick < (loopIter d total tps s).tick ∧
    (loopIter d total tps s).tick =
      (if (dispatchPhase d s.tick s.pending s.dispatched).1 <
          loopTarget total (dispatchPhase d s.tick s.pending s.dispatched).2.1 s.nextSample
       then loopTarget total (dispatchPhase d s.tick s.pending s.dispatched).2.1 s.nextSample
       else (dispatchPhase d s.tick s.pending s.dispatched).1 + 1) ∧
    ∀ fuel, total - s.tick ≤ fuel → total ≤ (runLoopFuel d total tps fuel s).tick := by
  have htick : ∀ s' : MergerState, (loopIter d total tps s').tick =
      (if (dispatchPhase d s'.tick s'.pending s'.dispatched).1 <
          loopTarget total (dispatchPhase d s'.tick s'.pending s'.dispatched).2.1 s'.nextSample
       then loopTarget total (dispatchPhase d s'.tick s'.pending s'.dispatched).2.1 s'.nextSample
       else (dispatchPhase d s'.tick s'.pending s'.dispatched).1 + 1) := by
    intro s'
    simp only [loopIter]
    split <;> split <;> rfl
  have hlt : ∀ s' : MergerState, s'.tick < (loopIter d total tps s').tick := by
    intro s'
    rw [htick s']
    have hle := dispatchPhase_tick_le d s'.pending s'.tick s'.dispatched
    split
    · next h => omega
    · omega
  refine ⟨hlt s, htick s, ?_⟩
  intro fuel
  induction fuel generalizing s with
  | zero =>
    intro h
    simp only [runLoopFuel]
    omega
  | succ fuel ih =>
    intro h
    simp only [runLoopFuel]
    split
    · next hrun =>
      refine ih (loopIter d total tps s) ?_
      have := hlt s
      omega
    · next hstop => omega

/-- Witness for C9: a pathological input whose three pending events all
share tick 0 still reaches the 200-tick budget within 200 iterations. -/
theorem claim_C9_witness :
    200 ≤ (runLoopFuel 2 200 1000 200
      ⟨0, [⟨0, 24, 15⟩, ⟨0, 0, 1⟩, ⟨0, 2, 3⟩], [], 0, 1000⟩).tick :=
  (claim_C9 2 200 1000 ⟨0, [⟨0, 24, 15⟩, ⟨0, 0, 1⟩, ⟨0, 2, 3⟩], [], 0, 1000⟩).2.2 200 (by decide)

/-- Counterexample to C4: the claim asserts that within each timeline ties
are broken by insertion order (stable) regardless of internal queue
implementation, but the timelines are ordered with `std::sort`, whose
contract (`sort_spec`) only requires a permutation sorted by `sample`.  For
the two-event timeline below with both events at sample 500, the swapped
output satisfies the `std::sort` contract yet differs from the
insertion order. -/
theorem claim_C4_counterexample :
    sort_spec
      [⟨500, 0, 0, 16, EventType.GATE_ON⟩, ⟨500, 7, 0, 32, EventType.GATE_ON⟩]
      [⟨500, 7, 0, 32, EventType.GATE_ON⟩, ⟨500, 0, 0, 16, EventType.GATE_ON⟩] ∧
    ([⟨500, 7, 0, 32, EventType.GATE_ON⟩, ⟨500, 0, 0, 16, EventType.GATE_ON⟩] :
        List NoteEvent) ≠
      [⟨500, 0, 0, 16, EventType.GATE_ON⟩, ⟨500, 7, 0, 32, EventType.GATE_ON⟩] := by
  refine ⟨⟨List.Perm.swap _ _ _, ?_⟩, ?_⟩
  · decide
  · decide

/-- Claim C4 as amended: timeline events are sorted ascending by tick but
the order of tied events within one timeline is unspecified
(`std::sort` is not stable); across timelines, events due at the same tick
are dispatched in the order their timelines were registered: for three
timelines whose events are all due at the dispatch instant, registered in
order `A`, `B`, `C`, the dispatch order is all of `A`, then all of `B`,
then all of `C`. -/
theorem claim_C4_amended (A B C : List NoteEvent) (now : Nat)
    (hA : ∀ e ∈ A, e.sample ≤ now) (hB : ∀ e ∈ B, e.sample ≤ now)
    (hC : ∀ e ∈ C, e.sample ≤ now) :
    dispatch_order now [A, B, C] = A ++ B ++ C := by
  have tA : due_events now A = A := by
    unfold due_events
    exact List.takeWhile_eq_self_iff.mpr (fun e he => decide_eq_true (hA e he))
  have tB : due_events now B = B := by
    unfold due_events
    exact List.takeWhile_eq_self_iff.mpr (fun e he => decide_eq_true (hB e he))
  have tC : due_events now C = C := by
    unfold due_events
    exact List.takeWhile_eq_self_iff.mpr (fun e he => decide_eq_true (hC e he))
  simp only [dispatch_order, List.map_cons, List.map_nil, tA, tB, tC,
    List.flatten_cons, List.flatten_nil, List.append_nil, List.append_assoc]

/-- Witness for the amended C4: three singleton timelines with events at
identical tick 500 registered in order A, B, C dispatch in order A, B, C. -/
theorem claim_C4_amended_witness :
    dispatch_order 500
      [[⟨500, 0, 0, 16, EventType.GATE_ON⟩],
       [⟨500, 7, 0, 32, EventType.GATE_ON⟩],
       [⟨500, 14, 0, 64, EventType.GATE_OFF⟩]] =
      [⟨500, 0, 0, 16, EventType.GATE_ON⟩] ++ [⟨500, 7, 0, 32, EventType.GATE_ON⟩] ++
        [⟨500, 14, 0, 64, EventType.GATE_OFF⟩] :=
  claim_C4_amended _ _ _ 500 (by decide) (by decide) (by decide)

/-- Witness for C3: 23 ticks at decimation ratio 5 capture
`⌊23/5⌋ = 4` bits, flushed into `⌈4/8⌉ = 1` byte (one padded byte, since 4
is not a multiple of 8). -/
theorem claim_C3_witness :
    (runCapture 5 (fun _ => 1) 23).2.total = 23 / 5 ∧
    ((runCapture 5 (fun _ => 1) 23).2.flushOut).length = (23 / 5 + 7) / 8 ∧
    (((runCapture 5 (fun _ => 1) 23).2.flushOut).length =
        (runCapture 5 (fun _ => 1) 23).2.out.length + 1 ↔ ¬ 23 / 5 % 8 = 0) :=
  claim_C3 5 (fun _ => 1) 23 (by decide)
